import Mathlib

/-!
Shallow embedding of the tool-orchestration core of the
`national_data_assistant` repository (`backend/services.py`,
`backend/agent.py`, `backend/api.py`), together with theorems settling the
frozen claims about it.  Python floats are modelled as rationals, Python
ints as `Int`/`Nat`, dicts as insertion-ordered association lists, and the
external collaborators (geodata backend, geocoder, LLM capability) as
oracle parameters.
-/

namespace Nda

/-- A normalized point record as produced by the parsing loop of
`query_osm_tokyo` and stored in layers: the Python dict
`{"lat": .., "lon": .., "name": .., "brand": ..}` plus the `"layer"` key
that the search tools add via `setdefault`. -/
structure Row where
  lat : ℚ
  lon : ℚ
  name : Option String
  brand : Option String
  layer : Option String := none
deriving DecidableEq, Repr

/-- Python `round(q)` to the nearest integer with ties to even (banker's
rounding), on rationals. -/
def pyRoundInt (q : ℚ) : ℤ :=
  let f := ⌊q⌋
  let r := q - (f : ℚ)
  if r < 1/2 then f
  else if (1 : ℚ)/2 < r then f + 1
  else if f % 2 = 0 then f else f + 1

/-- Python `round(x, 6)`: rounding to 6 decimal places. -/
def round6 (q : ℚ) : ℚ := (pyRoundInt (q * 1000000) : ℚ) / 1000000

/-- Python `round(x, 3)`: rounding to 3 decimal places. -/
def round3 (q : ℚ) : ℚ := (pyRoundInt (q * 1000) : ℚ) / 1000

/-- The deduplication key `(round(r["lat"], 6), round(r["lon"], 6),
r.get("name"))` used by `_merge_union_layers` (services.py line 50) and by
the union branch of `run_search_tool` (line 295). -/
def dedupKey (r : Row) : ℚ × ℚ × Option String :=
  (round6 r.lat, round6 r.lon, r.name)

/-- The `seen`/`uniq` first-occurrence filter shared by
`_merge_union_layers` (services.py lines 47-54) and the union branch of
`run_search_tool` (lines 292-299). -/
def dedupRowsAux (seen : List (ℚ × ℚ × Option String)) : List Row → List Row
  | [] => []
  | r :: rest =>
    if dedupKey r ∈ seen then dedupRowsAux seen rest
    else r :: dedupRowsAux (dedupKey r :: seen) rest

/-- Deduplication of a row list, starting from an empty `seen` set. -/
def dedupRows (rows : List Row) : List Row := dedupRowsAux [] rows

/-- A layers mapping `{label: [rows]}`, modelled as an insertion-ordered
association list (Python dict keys are distinct and insertion ordered). -/
abbrev Layers := List (String × List Row)

/-- `_merge_union_layers` (services.py lines 40-55). -/
def merge_union_layers (layers : Layers) : Layers :=
  let union_rows := (layers.map Prod.snd).flatten
  if union_rows = [] then [("union", [])]
  else [("union", dedupRows union_rows)]

/-- A raw element of the geodata backend JSON response.  `lat`/`lon` are
the direct coordinates the parser reads via `e.get("lat")`/`e.get("lon")`;
`centerLat`/`centerLon` model the centroid coordinate a way or relation
would carry in the wire format (the parsing loop never reads it). -/
structure OsmElement where
  lat : Option ℚ
  lon : Option ℚ
  centerLat : Option ℚ
  centerLon : Option ℚ
  name : Option String
  brand : Option String
deriving DecidableEq, Repr

/-- The parsing loop of `query_osm_tokyo` (services.py lines 169-184): an
element is kept exactly when both direct coordinates are present, and
otherwise dropped by `continue` (silently, no error). -/
def parseElements : List OsmElement → List Row
  | [] => []
  | e :: rest =>
    match e.lat, e.lon with
    | some la, some lo =>
      { lat := la, lon := lo, name := e.name, brand := e.brand } :: parseElements rest
    | _, _ => parseElements rest

/-- The row built from an element that carries direct coordinates. -/
def rowOfElement (e : OsmElement) : Row :=
  { lat := e.lat.getD 0, lon := e.lon.getD 0, name := e.name, brand := e.brand }

/-- `out_n = int(limit or 300); if out_n <= 0: out_n = 300` in
`query_osm_tokyo` (services.py lines 154-156); `None` and `0` are falsy. -/
def outN (limit : Option ℤ) : ℤ :=
  let v : ℤ :=
    match limit with
    | none => 300
    | some l => if l = 0 then 300 else l
  if v ≤ 0 then 300 else v

/-- The argument fields read and written by `apply_range_defaults`,
`revise_search_args` and `revise_trip_args`.  `none` models an absent key
or JSON `null`. -/
structure Args where
  range : Option String := none
  radius_km : Option ℚ := none
  limit : Option ℤ := none
  per_day : Option ℤ := none
  days : Option ℤ := none
  open_24h : Bool := false
  wheelchair : Bool := false
deriving DecidableEq, Repr

/-- The `mode` parameter of `apply_range_defaults`. -/
inductive Mode
  | search
  | trip
deriving DecidableEq, Repr

/-- `r = (args.get("range") or "standard").strip()` followed by the
membership test against `("narrow", "standard", "wide")`
(services.py lines 188-190). -/
def normRange (range : Option String) : String :=
  let r := (match range with
    | none => "standard"
    | some s => if s = "" then "standard" else s).trim
  if r = "narrow" ∨ r = "standard" ∨ r = "wide" then r else "standard"

/-- `apply_range_defaults` (services.py lines 187-210): fills
`radius_km`/`limit` (and `per_day` for trips) from the range tier only when
the caller left them unset. -/
def apply_range_defaults (args : Args) (mode : Mode) : Args :=
  let r := normRange args.range
  match mode with
  | .search =>
    let radius_default : ℚ := if r = "narrow" then 3/2 else if r = "wide" then 8 else 3
    let limit_default : ℤ := if r = "narrow" then 120 else if r = "wide" then 300 else 200
    { args with
      radius_km := some (args.radius_km.getD radius_default),
      limit := some (args.limit.getD limit_default) }
  | .trip =>
    let radius_default : ℚ := if r = "narrow" then 5/2 else if r = "wide" then 12 else 5
    let limit_default : ℤ := if r = "narrow" then 200 else if r = "wide" then 500 else 300
    let per_day_default : ℤ := if r = "narrow" then 5 else if r = "wide" then 7 else 6
    { args with
      radius_km := some (args.radius_km.getD radius_default),
      limit := some (args.limit.getD limit_default),
      per_day := some (args.per_day.getD per_day_default) }

/-- Python `int(x)` applied to a float: truncation toward zero. -/
def truncRat (q : ℚ) : ℤ := if 0 ≤ q then ⌊q⌋ else ⌈q⌉

/-- `revise_search_args` (services.py lines 213-231).  `1.8` and the caps
are exact decimals, so the rational computation mirrors the float one on
every input relevant to the claims. -/
def revise_search_args (args : Args) (attempt : ℤ) : Args :=
  let a1 :=
    match args.radius_km with
    | some r => { args with radius_km := some (min (r * (9/5)) 15) }
    | none => { args with radius_km := some 3 }
  let a2 :=
    match a1.limit with
    | some l => { a1 with limit := some (min (l * 2) 500) }
    | none => { a1 with limit := some 300 }
  if 2 ≤ attempt then { a2 with open_24h := false, wheelchair := false }
  else a2

/-- `revise_trip_args` (services.py lines 234-254). -/
def revise_trip_args (args : Args) (attempt : ℤ) : Args :=
  let a1 :=
    match args.radius_km with
    | some r => { args with radius_km := some (min (r * (9/5)) 20) }
    | none => { args with radius_km := some 5 }
  let a2 :=
    match a1.limit with
    | some l => { a1 with limit := some (min (l * 2) 800) }
    | none => { a1 with limit := some 500 }
  if 2 ≤ attempt then
    let a3 := { a2 with open_24h := false, wheelchair := false }
    match a3.per_day with
    | some p => { a3 with per_day := some (max 3 (truncRat ((p : ℚ) * (4/5)))) }
    | none => a3
  else a2

/-- `days = max(1, min(int(args.get("days", 1)), 14))` in
`_collect_trip_candidates` (services.py line 388) and in the trip planners. -/
def clampDays (d : ℤ) : ℤ := max 1 (min d 14)

/-- `per_day = max(1, min(int(args.get("per_day", 6)), 12))` in
`_collect_trip_candidates` (services.py line 391) and in the trip planners. -/
def clampPerDay (p : ℤ) : ℤ := max 1 (min p 12)

/-- A tag-filter list, the value side of `CATEGORY_MAP`. -/
abbrev Tags := List (String × String)

/-- `CATEGORY_MAP`: the taxonomy mapping each known category to its tag
filters, as an association list. -/
abbrev CategoryMap := List (String × Tags)

/-- `r.setdefault("layer", c)`: set the `layer` key only when absent. -/
def setLayerDefault (c : String) (r : Row) : Row :=
  match r.layer with
  | none => { r with layer := some c }
  | some _ => r

/-- The result dict returned by the search tools (the opaque `store_id`
and the echoed `args` are dropped; `layers` is the stored entry's layers
and `stats` its per-layer counts). -/
structure SearchResult where
  layers : Layers
  stats : List (String × ℕ)
  result_type : String
deriving DecidableEq, Repr

/-- Association-list update with Python dict assignment semantics: replace
in place when the key exists, else append. -/
def upsert (m : Layers) (k : String) (v : List Row) : Layers :=
  match m with
  | [] => [(k, v)]
  | (k₁, v₁) :: rest => if k₁ = k then (k, v) :: rest else (k₁, v₁) :: upsert rest k v

/-- The category loop and union branch of `run_search_tool`
(services.py lines 257-304).  The geodata backend is abstracted by the
`query` oracle: `query tags` stands for the call
`query_osm_tokyo(tags, brand=.., center=.., radius_km=.., limit=..)`, whose
non-category arguments are fixed for the whole invocation.  Unknown
categories are skipped (`print` warning, `continue`). -/
def searchStep (cmap : CategoryMap) (query : Tags → List Row) (union : Bool)
    (acc : Layers × List Row) (c : String) : Layers × List Row :=
  match cmap.lookup c with
  | none => acc
  | some tags =>
    let rows := (query tags).map (setLayerDefault c)
    (upsert acc.1 c rows, if union then acc.2 ++ rows else acc.2)

/-- `run_search_tool` (services.py lines 257-304): fold the category loop
over the requested categories, then collapse into a single deduplicated
"union" layer when `union` is set and any rows were collected. -/
def run_search_tool (cmap : CategoryMap) (query : Tags → List Row)
    (cats : List String) (union : Bool) : SearchResult :=
  let res := cats.foldl (searchStep cmap query union) ([], [])
  let layers := if union ∧ res.2 ≠ [] then [("union", dedupRows res.2)] else res.1
  { layers := layers,
    stats := layers.map (fun kv => (kv.1, kv.2.length)),
    result_type := "search" }

/-- `run_search_category_tool` (services.py lines 307-341): raises
`ValueError(f"unknown category: {category}")` when the category is not in
the taxonomy, and otherwise queries that single category with
`union = False`. -/
def run_search_category_tool (cmap : CategoryMap) (query : Tags → List Row)
    (category : String) : Except String SearchResult :=
  match cmap.lookup category with
  | none => .error ("unknown category: " ++ category)
  | some tags =>
    let rows := (query tags).map (setLayerDefault category)
    .ok { layers := [(category, rows)],
          stats := [(category, rows.length)],
          result_type := "category" }

/-- The `pace` parameter of the itinerary builder. -/
inductive Pace
  | relaxed
  | standard
  | packed
deriving DecidableEq, Repr

/-- `start_h = {"relaxed": 10, "standard": 9, "packed": 8}[pace]`
(services.py line 451). -/
def startHour : Pace → ℕ
  | .relaxed => 10
  | .standard => 9
  | .packed => 8

/-- A candidate row inside a bucket: a `Row` whose `layer` key is set and
that `_collect_trip_candidates` annotated with `dist_km`. -/
structure CandRow where
  lat : ℚ
  lon : ℚ
  name : Option String
  brand : Option String
  layer : String
  dist_km : ℚ
deriving DecidableEq, Repr

/-- A scheduled item of one itinerary day (services.py lines 455-465). -/
structure SlotItem where
  time : String
  name : String
  category : String
  lat : ℚ
  lon : ℚ
  brand : Option String
  distance_km_from_center : ℚ
deriving DecidableEq, Repr

/-- One itinerary day, `{"day": d+1, "place": .., "items": [..]}`
(services.py line 467); the `center` field is omitted (no claim reads it). -/
structure Day where
  day : ℕ
  place : Option String
  items : List SlotItem
deriving DecidableEq, Repr

/-- `f"{hour:02d}"`: decimal rendering zero-padded to width 2. -/
def pad2 (n : ℕ) : String :=
  if n < 10 then "0" ++ toString n else toString n

/-- Helper for `pyTitle`: the boolean records whether the previous
character was alphabetic. -/
def titleAux : List Char → Bool → List Char
  | [], _ => []
  | c :: cs, prevAlpha =>
    (if c.isAlpha then (if prevAlpha then c.toLower else c.toUpper) else c)
      :: titleAux cs c.isAlpha

/-- Python `str.title()` (restricted to cased letters): uppercase the first
letter of each alphabetic run, lowercase the rest. -/
def pyTitle (s : String) : String := ⟨titleAux s.data false⟩

/-- `r.get("name") or f"{r['layer'].title()}"` (services.py line 458):
a missing or empty name falls back to the capitalized layer label. -/
def resolveName (r : CandRow) : String :=
  match r.name with
  | none => pyTitle r.layer
  | some s => if s = "" then pyTitle r.layer else s

/-- One scheduled item built from a candidate row and its hour
(services.py lines 455-465). -/
def slotItem (hour : ℕ) (r : CandRow) : SlotItem :=
  { time := pad2 hour ++ ":00",
    name := resolveName r,
    category := r.layer,
    lat := r.lat,
    lon := r.lon,
    brand := r.brand,
    distance_km_from_center := round3 r.dist_km }

/-- `int(8 / per_day + 1)` (services.py line 454) in natural-number
division: for `per_day ∈ [1,12]` the float quotient `8 / per_day` is either
exact (powers of two) or bounded well away from an integer, so truncation
of the float agrees with `8 / per_day + 1` over `Nat`. -/
def hourStep (perDay : ℕ) : ℕ := 8 / perDay + 1

/-- The `for j, r in enumerate(items)` slot loop (services.py lines
453-465): the `j`-th item is stamped with hour `start_h + j * step`. -/
def mkSlot (startH step : ℕ) : ℕ → List CandRow → List SlotItem
  | _, [] => []
  | j, r :: rest => slotItem (startH + j * step) r :: mkSlot startH step (j + 1) rest

/-- The inner `while tried < len(cats)` scan of
`_build_itinerary_from_buckets` (services.py lines 435-446): starting at
`cat_cursor`, find the position of the first category in rotation whose
bucket still has an unconsumed candidate.  `remaining` counts the scans
still allowed (`len(cats) - tried`). -/
def scanPick (buckets : List (List CandRow)) (idx : List ℕ) (cursor : ℕ) :
    ℕ → ℕ → Option ℕ
  | 0, _ => none
  | remaining + 1, tried =>
    if idx.getD ((cursor + tried) % buckets.length) 0 <
        (buckets.getD ((cursor + tried) % buckets.length) []).length then
      some ((cursor + tried) % buckets.length)
    else scanPick buckets idx cursor remaining (tried + 1)

/-- One iteration of the `for _ in range(per_day)` body (services.py lines
429-449): pick the next candidate in rotation and advance the per-category
index and the cursor; `none` is the `if not picked: break` case (and the
`if not cats: break` case).  The Python dict keys are distinct, so
`cats.index(cat)` is exactly the scanned position `p`. -/
def pickOne (buckets : List (List CandRow)) (idx : List ℕ) (cursor : ℕ) :
    Option (CandRow × List ℕ × ℕ) :=
  if buckets.length = 0 then none
  else
    match scanPick buckets idx cursor buckets.length 0 with
    | none => none
    | some p =>
      match (buckets.getD p []).get? (idx.getD p 0) with
      | none => none
      | some r => some (r, idx.set p (idx.getD p 0 + 1), (p + 1) % buckets.length)

/-- The `for _ in range(per_day)` loop: collect at most `n` items,
threading the index and cursor state. -/
def buildDayItems (buckets : List (List CandRow)) :
    ℕ → List ℕ → ℕ → List CandRow × List ℕ × ℕ
  | 0, idx, cursor => ([], idx, cursor)
  | n + 1, idx, cursor =>
    match pickOne buckets idx cursor with
    | none => ([], idx, cursor)
    | some (r, idx₁, cur₁) =>
      let rest := buildDayItems buckets n idx₁ cur₁
      (r :: rest.1, rest.2.1, rest.2.2)

/-- The outer `for d in range(days)` loop of
`_build_itinerary_from_buckets` (services.py lines 426-467). -/
def buildDays (place : Option String) (buckets : List (List CandRow))
    (perDay startH step : ℕ) :
    ℕ → ℕ → List ℕ → ℕ → List Day
  | 0, _, _, _ => []
  | dRem + 1, d, idx, cursor =>
    let st := buildDayItems buckets perDay idx cursor
    { day := d + 1, place := place, items := mkSlot startH step 0 st.1 }
      :: buildDays place buckets perDay startH step dRem (d + 1) st.2.1 st.2.2

/-- `_build_itinerary_from_buckets` (services.py lines 420-482), returning
the itinerary (the flattened union rows and the `center` pass-through are
omitted; no claim mentions them).  The initial state is
`idx_by_cat = {k: 0 for k in buckets}` and `cat_cursor = 0`; the bucket
order is the dict insertion order. -/
def build_itinerary_from_buckets (place : Option String)
    (buckets : List (String × List CandRow)) (days perDay : ℕ) (pace : Pace) :
    List Day :=
  let bs := buckets.map Prod.snd
  buildDays place bs perDay (startHour pace) (hourStep perDay)
    days 0 (List.replicate bs.length 0) 0

/-- The parsed LLM judgment `{"success": .., "reason": .., "action_ok": ..}`
returned by the validation capability when it is reachable and parseable. -/
structure LlmVerdict where
  success : Bool
  reason : String
  action_ok : Bool
deriving DecidableEq, Repr

/-- The `ValidationVerdict` dict returned by `validate_search_result` and
`validate_trip_result`. -/
structure Verdict where
  success : Bool
  reason : String
  action_ok : Bool
deriving DecidableEq, Repr

/-- `sum(stats.values())` (agent.py line 213). -/
def statsTotal (stats : List (String × ℕ)) : ℕ :=
  (stats.map Prod.snd).sum

/-- `validate_search_result` (agent.py lines 211-245).  The judging
capability is modelled by `data : Option LlmVerdict`: `none` stands for the
capability being unavailable or returning unparseable output (the
`not isinstance(data, dict)` branch), which takes the deterministic
fallback `{"success": total >= 5, "action_ok": True}`. -/
def validate_search_result (data : Option LlmVerdict)
    (stats : List (String × ℕ)) : Verdict :=
  let total := statsTotal stats
  match data with
  | none =>
    { success := decide (5 ≤ total),
      reason := "件数ベースで判定しました。",
      action_ok := true }
  | some d => { success := d.success, reason := d.reason, action_ok := d.action_ok }

/-- `_count_itinerary_spots` (agent.py lines 207-208). -/
def count_itinerary_spots (itinerary : List Day) : ℕ :=
  (itinerary.map (fun d => d.items.length)).sum

/-- `validate_trip_result` (agent.py lines 248-295).  `days` and `perDay`
are the non-negative values computed as `int(args.get("days") or 1)` and
`int(args.get("per_day") or 6)`.  The fallback thresholds
`int(days * per_day * 0.95)` and `int(per_day * 0.8)` are exact natural
floors here: over the clamped ranges (`days <= 14`, `per_day <= 12`, and
far beyond) the Python float products round to the exact values. -/
def validate_trip_result (data : Option LlmVerdict) (days perDay : ℕ)
    (itinerary : List Day) : Verdict :=
  match data with
  | none =>
    let spots := count_itinerary_spots itinerary
    let threshold := max 3 (days * perDay * 95 / 100)
    let day_counts := itinerary.map (fun d => d.items.length)
    let day_ok := day_counts.all (fun c => decide (max 1 (perDay * 8 / 10) ≤ c))
    { success := decide (threshold ≤ spots) && day_ok,
      reason := "件数ベースで判定しました。",
      action_ok := true }
  | some d => { success := d.success, reason := d.reason, action_ok := d.action_ok }

/-- The six tools exposed by `build_tools` (agent.py lines 47-197). -/
inductive ToolName
  | search_osm_tokyo
  | search_category_tokyo
  | merge_search_results
  | plan_trip_tokyo
  | collect_trip_candidates
  | build_trip_itinerary
deriving DecidableEq, Repr

/-- The `result_type` field of the dict each tool returns
(services.py lines 304, 341, 376, 496, 545, 571). -/
def toolResultType : ToolName → String
  | .search_osm_tokyo => "search"
  | .search_category_tokyo => "category"
  | .merge_search_results => "search"
  | .plan_trip_tokyo => "trip"
  | .collect_trip_candidates => "candidate"
  | .build_trip_itinerary => "trip"

/-- `result.get("result_type") in ("search", "trip")` (api.py line 95). -/
def isTerminal (t : ToolName) : Bool :=
  decide (toolResultType t = "search" ∨ toolResultType t = "trip")

/-- The outcome of `_run_agent_tool_chain` (api.py lines 60-99):
`finalized t` is the `{"result": .., "tool_name": ..}` return,
`noToolCalls` the `{"error": "no tool calls"}` return (surfaced by the
endpoints as the parameter-extraction failure), and `stepsExceeded` the
`{"error": "tool steps exceeded"}` return. -/
inductive ChainResult
  | finalized (t : ToolName)
  | noToolCalls
  | stepsExceeded
deriving DecidableEq, Repr

/-- The `for tc in msg.tool_calls` body (api.py lines 89-97): execute the
batch's invocations in listed order, returning early at the first terminal
one.  The first component lists the invocations actually executed, the
second the terminal invocation if one was reached. -/
def execBatch : List ToolName → List ToolName × Option ToolName
  | [] => ([], none)
  | t :: rest =>
    if isTerminal t then ([t], some t)
    else
      let p := execBatch rest
      (t :: p.1, p.2)

/-- The `for _ in range(agent.MAX_TOOL_STEPS)` loop of
`_run_agent_tool_chain` (api.py lines 64-99).  `resp k` abstracts the
model's tool-call batch at the k-th completion request of this chain
(`[]` = the model returned no tool calls); `fuel` is the number of loop
iterations left and `nudgeUsed` the `nudge_used` flag.  Returns the
outcome, the concatenated list of all executed tool invocations, and the
number of corrective nudge messages appended. -/
def runChain (resp : ℕ → List ToolName) :
    ℕ → ℕ → Bool → ChainResult × List ToolName × ℕ
  | _, 0, _ => (.stepsExceeded, [], 0)
  | step, fuel + 1, nudgeUsed =>
    match resp step with
    | [] =>
      if nudgeUsed then (.noToolCalls, [], 0)
      else
        let r := runChain resp (step + 1) fuel true
        (r.1, r.2.1, r.2.2 + 1)
    | t :: ts =>
      let ex := execBatch (t :: ts)
      match ex.2 with
      | some tc => (.finalized tc, ex.1, 0)
      | none =>
        let r := runChain resp (step + 1) fuel nudgeUsed
        (r.1, ex.1 ++ r.2.1, r.2.2)

/-- `MAX_TOOL_STEPS` (agent.py line 41). -/
def MAX_TOOL_STEPS : ℕ := 6

/-- `_run_agent_tool_chain` (api.py lines 60-99): the loop starts with a
fresh conversation, the full step budget and no nudge sent. -/
def run_agent_tool_chain (resp : ℕ → List ToolName) :
    ChainResult × List ToolName × ℕ :=
  runChain resp 0 MAX_TOOL_STEPS false

/-! ## Helper lemmas (shared) -/

/-- The revised search radius, in closed form. -/
theorem revise_search_args_radius (args : Args) (attempt : ℤ) :
    (revise_search_args args attempt).radius_km =
      some ((args.radius_km.map (fun r => min (r * (9/5)) 15)).getD 3) := by
  unfold revise_search_args
  cases args.radius_km <;> cases args.limit <;> dsimp <;> split <;> rfl

/-- The revised search limit, in closed form. -/
theorem revise_search_args_limit (args : Args) (attempt : ℤ) :
    (revise_search_args args attempt).limit =
      some ((args.limit.map (fun l => min (l * 2) 500)).getD 300) := by
  unfold revise_search_args
  cases args.radius_km <;> cases args.limit <;> dsimp <;> split <;> rfl

/-- The revised trip radius, in closed form. -/
theorem revise_trip_args_radius (args : Args) (attempt : ℤ) :
    (revise_trip_args args attempt).radius_km =
      some ((args.radius_km.map (fun r => min (r * (9/5)) 20)).getD 5) := by
  unfold revise_trip_args
  cases args.radius_km <;> cases args.limit <;> cases args.per_day <;>
    dsimp <;> split <;> rfl

/-- The revised trip limit, in closed form. -/
theorem revise_trip_args_limit (args : Args) (attempt : ℤ) :
    (revise_trip_args args attempt).limit =
      some ((args.limit.map (fun l => min (l * 2) 800)).getD 500) := by
  unfold revise_trip_args
  cases args.radius_km <;> cases args.limit <;> cases args.per_day <;>
    dsimp <;> split <;> rfl

/-! ## Claims -/

/-- C1: when the judging capability is unavailable or returns unparseable
output (`data = none`), the deterministic fallback returns exactly: in
search mode, `success = (sum of all per-layer counts) >= 5` and
`action_ok = true`; in trip mode,
`success = (spots >= max(3, floor(days*per_day*0.95))) and day_ok` where
`day_ok` requires every day's item count to be at least
`max(1, floor(per_day*0.8))`, and `action_ok = true`; for every stats
mapping and every itinerary. -/
theorem C1_validator_fallback (stats : List (String × ℕ)) (days perDay : ℕ)
    (itinerary : List Day) :
    ((validate_search_result none stats).success = true ↔ 5 ≤ statsTotal stats)
      ∧ (validate_search_result none stats).action_ok = true
      ∧ ((validate_trip_result none days perDay itinerary).success = true ↔
          (max 3 (days * perDay * 95 / 100) ≤ count_itinerary_spots itinerary
            ∧ ∀ d ∈ itinerary, max 1 (perDay * 8 / 10) ≤ d.items.length))
      ∧ (validate_trip_result none days perDay itinerary).action_ok = true := by
  refine ⟨?_, rfl, ?_, rfl⟩
  · simp [validate_search_result]
  · simp [validate_trip_result, List.all_eq_true]

/-- C2 counterexample: the revision is not monotone on every argument bag.
A caller-supplied radius of 16 km (above the 15 km cap) is shrunk to 15 by
`revise_search_args`, so the produced radius is smaller than the input
radius, contradicting the claim's unrestricted monotonicity. -/
theorem C2_counterexample :
    (revise_search_args { radius_km := some 16 } 1).radius_km = some 15
      ∧ ¬ ((16 : ℚ) ≤ 15) := by
  refine ⟨?_, by norm_num⟩
  rw [revise_search_args_radius]
  norm_num

/-- C2 (amended): the revision functions are monotone non-decreasing in
`radius_km` and `limit` for inputs that are non-negative and within the
caps (radius <= 15 search / 20 trip, limit <= 500 search / 800 trip);
revised values never exceed the caps; an unset radius defaults to
3.0 (search) / 5.0 (trip) and an unset limit to 300 (search) / 500 (trip).
(Inputs above a cap are clamped down to it, and negative inputs grow away
from zero, so the unrestricted claim fails; see the counterexample.) -/
theorem C2_revision_monotone (args : Args) (attempt : ℤ) :
    (∀ r, args.radius_km = some r → 0 ≤ r → r ≤ 15 →
      ∃ r₁, (revise_search_args args attempt).radius_km = some r₁
        ∧ r ≤ r₁ ∧ r₁ ≤ 15) ∧
    (∀ l, args.limit = some l → 0 ≤ l → l ≤ 500 →
      ∃ l₁, (revise_search_args args attempt).limit = some l₁
        ∧ l ≤ l₁ ∧ l₁ ≤ 500) ∧
    (args.radius_km = none →
      (revise_search_args args attempt).radius_km = some 3) ∧
    (args.limit = none → (revise_search_args args attempt).limit = some 300) ∧
    (∀ r, args.radius_km = some r → 0 ≤ r → r ≤ 20 →
      ∃ r₁, (revise_trip_args args attempt).radius_km = some r₁
        ∧ r ≤ r₁ ∧ r₁ ≤ 20) ∧
    (∀ l, args.limit = some l → 0 ≤ l → l ≤ 800 →
      ∃ l₁, (revise_trip_args args attempt).limit = some l₁
        ∧ l ≤ l₁ ∧ l₁ ≤ 800) ∧
    (args.radius_km = none →
      (revise_trip_args args attempt).radius_km = some 5) ∧
    (args.limit = none → (revise_trip_args args attempt).limit = some 500) := by
  refine ⟨?_, ?_, ?_, ?_, ?_, ?_, ?_, ?_⟩
  · intro r hr h0 h15
    refine ⟨min (r * (9/5)) 15, ?_, le_min (by linarith) h15, min_le_right _ _⟩
    rw [revise_search_args_radius, hr]
    rfl
  · intro l hl h0 h500
    refine ⟨min (l * 2) 500, ?_, le_min (by linarith) h500, min_le_right _ _⟩
    rw [revise_search_args_limit, hl]
    rfl
  · intro h
    rw [revise_search_args_radius, h]
    rfl
  · intro h
    rw [revise_search_args_limit, h]
    rfl
  · intro r hr h0 h20
    refine ⟨min (r * (9/5)) 20, ?_, le_min (by linarith) h20, min_le_right _ _⟩
    rw [revise_trip_args_radius, hr]
    rfl
  · intro l hl h0 h800
    refine ⟨min (l * 2) 800, ?_, le_min (by linarith) h800, min_le_right _ _⟩
    rw [revise_trip_args_limit, hl]
    rfl
  · intro h
    rw [revise_trip_args_radius, h]
    rfl
  · intro h
    rw [revise_trip_args_limit, h]
    rfl

/-- C2 witness: the amended monotonicity at concrete inputs — radius 2 km,
limit 100 for the set case, and a fully unset bag for the defaults. -/
theorem C2_revision_monotone_witness :
    (∃ r₁, (revise_search_args { radius_km := some 2, limit := some 100 } 1).radius_km
        = some r₁ ∧ (2 : ℚ) ≤ r₁ ∧ r₁ ≤ 15)
      ∧ (∃ l₁, (revise_search_args { radius_km := some 2, limit := some 100 } 1).limit
        = some l₁ ∧ (100 : ℤ) ≤ l₁ ∧ l₁ ≤ 500)
      ∧ (revise_search_args {} 1).radius_km = some 3
      ∧ (revise_search_args {} 1).limit = some 300
      ∧ (∃ r₁, (revise_trip_args { radius_km := some 2, limit := some 100 } 1).radius_km
        = some r₁ ∧ (2 : ℚ) ≤ r₁ ∧ r₁ ≤ 20)
      ∧ (∃ l₁, (revise_trip_args { radius_km := some 2, limit := some 100 } 1).limit
        = some l₁ ∧ (100 : ℤ) ≤ l₁ ∧ l₁ ≤ 800)
      ∧ (revise_trip_args {} 1).radius_km = some 5
      ∧ (revise_trip_args {} 1).limit = some 500 := by
  obtain ⟨s1, s2, _, _, t1, t2, _, _⟩ :=
    C2_revision_monotone { radius_km := some 2, limit := some 100 } 1
  obtain ⟨_, _, s3, s4, _, _, t3, t4⟩ := C2_revision_monotone {} 1
  exact ⟨s1 2 rfl (by norm_num) (by norm_num),
    s2 100 rfl (by norm_num) (by norm_num),
    s3 rfl, s4 rfl,
    t1 2 rfl (by norm_num) (by norm_num),
    t2 100 rfl (by norm_num) (by norm_num),
    t3 rfl, t4 rfl⟩

/-- C8 counterexample: range-tier default application does not make a
caller-supplied negative radius positive — `apply_range_defaults` keeps
`radius_km = -5` untouched, and `_collect_trip_candidates` /
`query_osm_tokyo` never sanitize the radius, so the claim's unrestricted
positivity fails. -/
theorem C8_counterexample :
    (apply_range_defaults { radius_km := some (-5) } Mode.search).radius_km
        = some (-5)
      ∧ ¬ ((0 : ℚ) < -5) := by
  exact ⟨rfl, by norm_num⟩

/-- C8 (amended): `apply_range_defaults` fills defaults only when the
caller omitted the value and never overrides caller-supplied `radius_km`,
`limit` or `per_day`; the defaults it fills in are strictly positive; the
result cap the backend query actually uses (`out_n`) is strictly positive
for every caller-supplied limit; and the `days` / `per_day` values used to
build a trip are clamped into [1,14] and [1,12].  (A caller-supplied
non-positive radius, however, is kept as-is — see the counterexample.) -/
theorem C8_defaults_positive (args : Args) (mode : Mode) (limit : Option ℤ)
    (d p : ℤ) :
    (∀ r, args.radius_km = some r →
      (apply_range_defaults args mode).radius_km = some r) ∧
    (∀ l, args.limit = some l →
      (apply_range_defaults args mode).limit = some l) ∧
    (∀ q, args.per_day = some q →
      (apply_range_defaults args mode).per_day = some q) ∧
    (args.radius_km = none →
      ∃ r, (apply_range_defaults args mode).radius_km = some r ∧ 0 < r) ∧
    (args.limit = none →
      ∃ l, (apply_range_defaults args mode).limit = some l ∧ 0 < l) ∧
    0 < outN limit ∧
    (1 ≤ clampDays d ∧ clampDays d ≤ 14) ∧
    (1 ≤ clampPerDay p ∧ clampPerDay p ≤ 12) := by
  refine ⟨?_, ?_, ?_, ?_, ?_, ?_, ?_, ?_⟩
  · intro r hr
    cases mode <;> simp [apply_range_defaults, hr]
  · intro l hl
    cases mode <;> simp [apply_range_defaults, hl]
  · intro q hq
    cases mode <;> simp [apply_range_defaults, hq]
  · intro h
    cases mode <;> simp [apply_range_defaults, h] <;> split_ifs <;> norm_num
  · intro h
    cases mode <;> simp [apply_range_defaults, h] <;> split_ifs <;> norm_num
  · unfold outN
    cases limit with
    | none => norm_num
    | some l =>
      dsimp
      split
      · split <;> norm_num
      · split
        · norm_num
        · next h => exact lt_of_not_ge h
  · unfold clampDays
    omega
  · unfold clampPerDay
    omega

/-- C8 witness: default application at a concrete bag — supplied values
kept, omitted values filled with positive defaults, clamps in range. -/
theorem C8_defaults_positive_witness :
    (apply_range_defaults { radius_km := some 2 } Mode.search).radius_km = some 2
      ∧ (∃ l, (apply_range_defaults { radius_km := some 2 } Mode.search).limit
          = some l ∧ 0 < l)
      ∧ 0 < outN (some (-7))
      ∧ (1 ≤ clampDays 20 ∧ clampDays 20 ≤ 14) := by
  obtain ⟨h1, _, _, _, h5, h6, h7, _⟩ :=
    C8_defaults_positive { radius_km := some 2 } Mode.search (some (-7)) 20 3
  exact ⟨h1 2 rfl, h5 rfl, h6, h7⟩

/-- C9 counterexample: an element that lacks direct coordinates but does
carry a centroid coordinate is dropped by the parser — there is no
centroid fallback in `query_osm_tokyo`, contradicting the claim that such
elements yield a record. -/
theorem C9_counterexample :
    parseElements [{ lat := none, lon := none, centerLat := some 35,
                     centerLon := some 139, name := some "A", brand := none }]
      = [] := rfl

/-- C9 (amended): parsing keeps exactly the elements carrying a direct
coordinate pair; every element lacking a direct coordinate — whether or
not it carries a centroid — is dropped silently (the parser is total, no
error is raised), and every produced record carries the latitude,
longitude, name and brand fields of its element. -/
theorem C9_parse_direct_coords (es : List OsmElement) :
    parseElements es =
      (es.filter (fun e => e.lat.isSome && e.lon.isSome)).map rowOfElement := by
  induction es with
  | nil => rfl
  | cons e rest ih =>
    cases h1 : e.lat <;> cases h2 : e.lon <;>
      simp [parseElements, rowOfElement, h1, h2, ih]

/-- The `seen` set accumulated by one pass of the dedup filter. -/
def seenAfter (seen : List (ℚ × ℚ × Option String)) :
    List Row → List (ℚ × ℚ × Option String)
  | [] => seen
  | r :: rest =>
    if dedupKey r ∈ seen then seenAfter seen rest
    else seenAfter (dedupKey r :: seen) rest

theorem subset_seenAfter (l : List Row) (seen : List (ℚ × ℚ × Option String))
    (k : ℚ × ℚ × Option String) (hk : k ∈ seen) : k ∈ seenAfter seen l := by
  induction l generalizing seen with
  | nil => exact hk
  | cons r rest ih =>
    unfold seenAfter
    split
    · exact ih seen hk
    · exact ih (dedupKey r :: seen) (List.mem_cons_of_mem _ hk)

theorem key_mem_seenAfter (l : List Row) (seen : List (ℚ × ℚ × Option String))
    (r : Row) (hr : r ∈ l) : dedupKey r ∈ seenAfter seen l := by
  induction l generalizing seen with
  | nil => cases hr
  | cons a rest ih =>
    unfold seenAfter
    rcases List.mem_cons.mp hr with h | h
    · subst h
      split
      · next hmem => exact subset_seenAfter rest seen _ hmem
      · exact subset_seenAfter rest _ _ (List.mem_cons_self _ _)
    · split
      · exact ih seen h
      · exact ih _ h

theorem dedupRowsAux_append (l₁ l₂ : List Row)
    (seen : List (ℚ × ℚ × Option String)) :
    dedupRowsAux seen (l₁ ++ l₂) =
      dedupRowsAux seen l₁ ++ dedupRowsAux (seenAfter seen l₁) l₂ := by
  induction l₁ generalizing seen with
  | nil => rfl
  | cons r rest ih =>
    simp only [List.cons_append, dedupRowsAux, seenAfter]
    split
    · exact ih seen
    · simp [ih (dedupKey r :: seen)]

theorem dedupRowsAux_eq_nil (l : List Row) (seen : List (ℚ × ℚ × Option String))
    (h : ∀ r ∈ l, dedupKey r ∈ seen) : dedupRowsAux seen l = [] := by
  induction l with
  | nil => rfl
  | cons r rest ih =>
    unfold dedupRowsAux
    rw [if_pos (h r (List.mem_cons_self _ _))]
    exact ih fun x hx => h x (List.mem_cons_of_mem _ hx)

/-- Deduplicating a list concatenated with itself gives the same result as
deduplicating the list once. -/
theorem dedupRows_self_append (rows : List Row) :
    dedupRows (rows ++ rows) = dedupRows rows := by
  unfold dedupRows
  rw [dedupRowsAux_append]
  rw [dedupRowsAux_eq_nil rows (seenAfter [] rows)
    (fun r hr => key_mem_seenAfter rows [] r hr)]
  simp

/-- C6: union-layer deduplication keys records by
`(round(lat, 6), round(lon, 6), name)` and is idempotent — merging a layer
with itself through `_merge_union_layers` yields the same deduplicated
"union" layer as merging the layer alone, and two records sharing the key
collapse to the first of them. -/
theorem C6_dedup_idempotent :
    (∀ (k₁ k₂ : String) (rows : List Row),
      merge_union_layers [(k₁, rows), (k₂, rows)] = merge_union_layers [(k₁, rows)])
      ∧ (∀ r₁ r₂ : Row, dedupKey r₁ = dedupKey r₂ → dedupRows [r₁, r₂] = [r₁]) := by
  constructor
  · intro k₁ k₂ rows
    unfold merge_union_layers
    cases rows with
    | nil => rfl
    | cons a l =>
      simp only [List.map_cons, List.map_nil, List.flatten, List.append_nil]
      rw [if_neg (by simp), if_neg (by simp)]
      rw [dedupRows_self_append]
  · intro r₁ r₂ h
    simp [dedupRows, dedupRowsAux, h]

/-- C6 witness: two records 0.0000003 degrees apart in longitude share the
rounded key and collapse when a layer is merged with itself. -/
theorem C6_dedup_idempotent_witness :
    dedupKey { lat := 35, lon := 1393/10 + 1/10000000, name := some "A",
               brand := none }
      = dedupKey { lat := 35, lon := 1393/10 + 4/10000000, name := some "A",
                   brand := none }
      ∧ dedupRows
          [{ lat := 35, lon := 1393/10 + 1/10000000, name := some "A",
             brand := none },
           { lat := 35, lon := 1393/10 + 4/10000000, name := some "A",
             brand := none }]
        = [{ lat := 35, lon := 1393/10 + 1/10000000, name := some "A",
             brand := none }] := by
  have h : dedupKey
      { lat := 35, lon := 1393/10 + 1/10000000, name := some "A", brand := none }
      = dedupKey
        { lat := (35 : ℚ), lon := 1393/10 + 4/10000000, name := some "A",
          brand := none } := by
    unfold dedupKey round6 pyRoundInt
    norm_num
  exact ⟨h, C6_dedup_idempotent.2 _ _ h⟩

theorem foldl_searchStep_filter (cmap : CategoryMap) (query : Tags → List Row)
    (union : Bool) (cats : List String) (acc : Layers × List Row) :
    cats.foldl (searchStep cmap query union) acc =
      (cats.filter (fun c => (cmap.lookup c).isSome)).foldl
        (searchStep cmap query union) acc := by
  induction cats generalizing acc with
  | nil => rfl
  | cons c rest ih =>
    cases h : cmap.lookup c with
    | none =>
      have hs : searchStep cmap query union acc c = acc := by
        simp [searchStep, h]
      simp [List.filter_cons, h, hs, ih]
    | some tags =>
      simp [List.filter_cons, h, ih]

/-- C5 counterexample: the single-category search does not skip an unknown
category — `run_search_category_tool` raises
`ValueError("unknown category: ...")` instead of completing normally. -/
theorem C5_counterexample :
    run_search_category_tool [("cafe", [("amenity", "cafe")])] (fun _ => [])
        "onsen"
      = .error "unknown category: onsen" := rfl

/-- C5 (amended): in the multi-category search, a requested category that
is not in the taxonomy is skipped (warning only) and never causes the
operation to fail — the result is exactly that of the same request with
the unknown categories removed; the single-category search, by contrast,
raises `ValueError` on an unknown category and completes normally exactly
on known categories. -/
theorem C5_unknown_category_skipped (cmap : CategoryMap)
    (query : Tags → List Row) :
    (∀ (cats : List String) (union : Bool),
      run_search_tool cmap query cats union =
        run_search_tool cmap query
          (cats.filter (fun c => (cmap.lookup c).isSome)) union) ∧
    (∀ c, cmap.lookup c = none →
      run_search_category_tool cmap query c =
        .error ("unknown category: " ++ c)) ∧
    (∀ c tags, cmap.lookup c = some tags →
      run_search_category_tool cmap query c =
        .ok { layers := [(c, (query tags).map (setLayerDefault c))],
              stats := [(c, ((query tags).map (setLayerDefault c)).length)],
              result_type := "category" }) := by
  refine ⟨?_, ?_, ?_⟩
  · intro cats union
    unfold run_search_tool
    rw [foldl_searchStep_filter]
  · intro c h
    simp [run_search_category_tool, h]
  · intro c tags h
    simp [run_search_category_tool, h]

/-- C5 witness: with taxonomy `{cafe}`, requesting the unknown category
`onsen` alongside `cafe` gives the same result as requesting `cafe` alone,
and the single-category search fails on `onsen` but succeeds on `cafe`. -/
theorem C5_unknown_category_skipped_witness :
    run_search_tool [("cafe", [("amenity", "cafe")])] (fun _ => [])
        ["onsen", "cafe"] false
      = run_search_tool [("cafe", [("amenity", "cafe")])] (fun _ => [])
          (["onsen", "cafe"].filter
            (fun c => (([("cafe", [("amenity", "cafe")])] : CategoryMap).lookup
              c).isSome)) false
      ∧ run_search_category_tool [("cafe", [("amenity", "cafe")])]
          (fun _ => []) "onsen" = .error "unknown category: onsen"
      ∧ run_search_category_tool [("cafe", [("amenity", "cafe")])]
          (fun _ => []) "cafe"
        = .ok { layers := [("cafe", [])], stats := [("cafe", 0)],
                result_type := "category" } := by
  obtain ⟨h1, h2, h3⟩ :=
    C5_unknown_category_skipped [("cafe", [("amenity", "cafe")])] (fun _ => [])
  exact ⟨h1 ["onsen", "cafe"] false, h2 "onsen" rfl,
    h3 "cafe" [("amenity", "cafe")] rfl⟩

theorem upsert_forall_empty (m : Layers) (k : String)
    (h : ∀ kv ∈ m, kv.2 = ([] : List Row)) :
    ∀ kv ∈ upsert m k [], kv.2 = ([] : List Row) := by
  induction m with
  | nil => simp [upsert]
  | cons a rest ih =>
    unfold upsert
    split
    · intro kv hkv
      rcases List.mem_cons.mp hkv with h1 | h1
      · simp [h1]
      · exact h kv (List.mem_cons_of_mem _ h1)
    · intro kv hkv
      rcases List.mem_cons.mp hkv with h1 | h1
      · exact h kv (h1 ▸ List.mem_cons_self _ _)
      · exact ih (fun x hx => h x (List.mem_cons_of_mem _ hx)) kv h1

theorem mem_upsert_keys (m : Layers) (k : String) (v : List Row) (c : String) :
    c ∈ (upsert m k v).map Prod.fst ↔ c ∈ m.map Prod.fst ∨ c = k := by
  induction m with
  | nil => simp [upsert]
  | cons a rest ih =>
    unfold upsert
    split
    · next heq => simp [heq, or_comm, or_left_comm]
    · simp [ih, or_assoc]

theorem foldl_searchStep_snd_nil (cmap : CategoryMap) (query : Tags → List Row)
    (union : Bool) (cats : List String) (acc : Layers × List Row)
    (hq : ∀ c ∈ cats, ∀ tags, cmap.lookup c = some tags → query tags = []) :
    (cats.foldl (searchStep cmap query union) acc).2 = acc.2 := by
  induction cats generalizing acc with
  | nil => rfl
  | cons c rest ih =>
    have hrest : ∀ x ∈ rest, ∀ tags, cmap.lookup x = some tags → query tags = [] :=
      fun x hx => hq x (List.mem_cons_of_mem _ hx)
    cases h : cmap.lookup c with
    | none =>
      have hs : searchStep cmap query union acc c = acc := by simp [searchStep, h]
      simpa [List.foldl_cons, hs] using ih acc hrest
    | some tags =>
      have hrows : query tags = [] := hq c (List.mem_cons_self _ _) tags h
      have hs : searchStep cmap query union acc c = (upsert acc.1 c [], acc.2) := by
        cases union <;> simp [searchStep, h, hrows]
      simpa [List.foldl_cons, hs] using ih (upsert acc.1 c [], acc.2) hrest

theorem foldl_searchStep_fst_union_irrelevant (cmap : CategoryMap)
    (query : Tags → List Row) (u₁ u₂ : Bool) (cats : List String)
    (m : Layers) (w₁ w₂ : List Row) :
    (cats.foldl (searchStep cmap query u₁) (m, w₁)).1 =
      (cats.foldl (searchStep cmap query u₂) (m, w₂)).1 := by
  induction cats generalizing m w₁ w₂ with
  | nil => rfl
  | cons c rest ih =>
    cases h : cmap.lookup c with
    | none =>
      have h1 : searchStep cmap query u₁ (m, w₁) c = (m, w₁) := by
        simp [searchStep, h]
      have h2 : searchStep cmap query u₂ (m, w₂) c = (m, w₂) := by
        simp [searchStep, h]
      simpa [List.foldl_cons, h1, h2] using ih m w₁ w₂
    | some tags =>
      have h1 : searchStep cmap query u₁ (m, w₁) c =
          (upsert m c ((query tags).map (setLayerDefault c)),
            if u₁ then w₁ ++ (query tags).map (setLayerDefault c) else w₁) := by
        simp [searchStep, h]
      have h2 : searchStep cmap query u₂ (m, w₂) c =
          (upsert m c ((query tags).map (setLayerDefault c)),
            if u₂ then w₂ ++ (query tags).map (setLayerDefault c) else w₂) := by
        simp [searchStep, h]
      simp only [List.foldl_cons, h1, h2]
      exact ih _ _ _

theorem foldl_searchStep_fst_empty (cmap : CategoryMap)
    (query : Tags → List Row) (union : Bool) (cats : List String)
    (acc : Layers × List Row)
    (hq : ∀ c ∈ cats, ∀ tags, cmap.lookup c = some tags → query tags = [])
    (hacc : ∀ kv ∈ acc.1, kv.2 = ([] : List Row)) :
    ∀ kv ∈ (cats.foldl (searchStep cmap query union) acc).1, kv.2 = ([] : List Row) := by
  induction cats generalizing acc with
  | nil => exact hacc
  | cons c rest ih =>
    have hrest : ∀ x ∈ rest, ∀ tags, cmap.lookup x = some tags → query tags = [] :=
      fun x hx => hq x (List.mem_cons_of_mem _ hx)
    cases h : cmap.lookup c with
    | none =>
      have hs : searchStep cmap query union acc c = acc := by simp [searchStep, h]
      simpa [List.foldl_cons, hs] using ih acc hrest hacc
    | some tags =>
      have hrows : query tags = [] := hq c (List.mem_cons_self _ _) tags h
      have hs : searchStep cmap query union acc c = (upsert acc.1 c [], acc.2) := by
        cases union <;> simp [searchStep, h, hrows]
      simp only [List.foldl_cons, hs]
      exact ih (upsert acc.1 c [], acc.2) hrest
        (upsert_forall_empty acc.1 c hacc)

theorem foldl_searchStep_keys (cmap : CategoryMap) (query : Tags → List Row)
    (union : Bool) (cats : List String) (acc : Layers × List Row) (c : String) :
    c ∈ (cats.foldl (searchStep cmap query union) acc).1.map Prod.fst ↔
      c ∈ acc.1.map Prod.fst ∨ (c ∈ cats ∧ (cmap.lookup c).isSome) := by
  induction cats generalizing acc with
  | nil => simp
  | cons x rest ih =>
    cases h : cmap.lookup x with
    | none =>
      have hs : searchStep cmap query union acc x = acc := by simp [searchStep, h]
      rw [List.foldl_cons, hs, ih]
      constructor
      · rintro (h1 | ⟨h1, h2⟩)
        · exact Or.inl h1
        · exact Or.inr ⟨List.mem_cons_of_mem _ h1, h2⟩
      · rintro (h1 | ⟨h1, h2⟩)
        · exact Or.inl h1
        · rcases List.mem_cons.mp h1 with rfl | h1
          · rw [h] at h2
            cases h2
          · exact Or.inr ⟨h1, h2⟩
    | some tags =>
      have hs : searchStep cmap query union acc x =
          (upsert acc.1 x ((query tags).map (setLayerDefault x)),
            (searchStep cmap query union acc x).2) := by
        cases union <;> simp [searchStep, h]
      rw [List.foldl_cons, hs, ih]
      dsimp only
      rw [mem_upsert_keys]
      constructor
      · rintro ((h1 | rfl) | ⟨h1, h2⟩)
        · exact Or.inl h1
        · exact Or.inr ⟨List.mem_cons_self _ _, by simp [h]⟩
        · exact Or.inr ⟨List.mem_cons_of_mem _ h1, h2⟩
      · rintro (h1 | ⟨h1, h2⟩)
        · exact Or.inl (Or.inl h1)
        · rcases List.mem_cons.mp h1 with rfl | h1
          · exact Or.inl (Or.inr rfl)
          · exact Or.inr ⟨h1, h2⟩

/-- C10: a multi-category search with `union = true` whose requested
categories all match zero records does not collapse into a "union" layer:
it behaves exactly like the non-union search, keeping one empty layer per
known requested category (and, as long as no taxonomy category is itself
named "union", no "union" key); `_merge_union_layers` over all-empty
layers, by contrast, produces exactly the single layer `{"union": []}`. -/
theorem C10_empty_union_no_collapse (cmap : CategoryMap)
    (query : Tags → List Row) (cats : List String)
    (hq : ∀ c ∈ cats, ∀ tags, cmap.lookup c = some tags → query tags = []) :
    run_search_tool cmap query cats true = run_search_tool cmap query cats false
      ∧ (∀ kv ∈ (run_search_tool cmap query cats true).layers,
          kv.2 = ([] : List Row))
      ∧ (∀ c, c ∈ (run_search_tool cmap query cats true).layers.map Prod.fst ↔
          c ∈ cats ∧ (cmap.lookup c).isSome)
      ∧ ("union" ∉ cats →
          "union" ∉ (run_search_tool cmap query cats true).layers.map Prod.fst)
      ∧ (∀ layers : Layers, (∀ kv ∈ layers, kv.2 = ([] : List Row)) →
          merge_union_layers layers = [("union", [])]) := by
  have hsnd : (cats.foldl (searchStep cmap query true) ([], [])).2 = [] :=
    foldl_searchStep_snd_nil cmap query true cats ([], []) hq
  have hfst : (cats.foldl (searchStep cmap query true) ([], [])).1 =
      (cats.foldl (searchStep cmap query false) ([], [])).1 :=
    foldl_searchStep_fst_union_irrelevant cmap query true false cats [] [] []
  have hlayerstrue : (run_search_tool cmap query cats true).layers =
      (cats.foldl (searchStep cmap query true) ([], [])).1 := by
    unfold run_search_tool
    simp [hsnd]
  refine ⟨?_, ?_, ?_, ?_, ?_⟩
  · unfold run_search_tool
    simp [hsnd, hfst]
  · rw [hlayerstrue]
    exact foldl_searchStep_fst_empty cmap query true cats ([], []) hq (by simp)
  · intro c
    rw [hlayerstrue]
    simpa using foldl_searchStep_keys cmap query true cats ([], []) c
  · intro hu hmem
    rw [hlayerstrue] at hmem
    have := (foldl_searchStep_keys cmap query true cats ([], []) "union").mp hmem
    simp at this
    exact hu this.1
  · intro layers hall
    unfold merge_union_layers
    rw [if_pos]
    rw [List.flatten_eq_nil_iff]
    intro xs hxs
    rcases List.mem_map.mp hxs with ⟨kv, hkv, rfl⟩
    exact hall kv hkv

/-- C10 witness: taxonomy `{cafe}`, a backend returning no rows, request
`["cafe", "onsen"]` with `union = true` — the result keeps the single
empty `cafe` layer and no `union` key, while merging the all-empty layers
yields `{"union": []}`. -/
theorem C10_empty_union_no_collapse_witness :
    run_search_tool [("cafe", [("amenity", "cafe")])] (fun _ => [])
        ["cafe", "onsen"] true
      = run_search_tool [("cafe", [("amenity", "cafe")])] (fun _ => [])
          ["cafe", "onsen"] false
      ∧ ("union" ∉ (run_search_tool [("cafe", [("amenity", "cafe")])]
          (fun _ => []) ["cafe", "onsen"] true).layers.map Prod.fst)
      ∧ merge_union_layers [("cafe", []), ("onsen", [])] = [("union", [])] := by
  obtain ⟨h1, _, _, h4, h5⟩ :=
    C10_empty_union_no_collapse [("cafe", [("amenity", "cafe")])] (fun _ => [])
      ["cafe", "onsen"] (by intro c hc tags ht; rfl)
  refine ⟨h1, h4 (by decide), h5 [("cafe", []), ("onsen", [])] ?_⟩
  intro kv hkv
  rcases List.mem_cons.mp hkv with rfl | h
  · rfl
  · rcases List.mem_cons.mp h with rfl | h
    · rfl
    · cases h

/-- The number of empty (no-tool-call) model responses among the next
`fuel` turns starting at `step`. -/
def countEmpty (resp : ℕ → List ToolName) (step : ℕ) : ℕ → ℕ
  | 0 => 0
  | fuel + 1 => (if resp step = [] then 1 else 0) + countEmpty resp (step + 1) fuel

theorem execBatch_first_terminal (pre : List ToolName) (tc : ToolName)
    (post : List ToolName) (hpre : ∀ c ∈ pre, isTerminal c = false)
    (htc : isTerminal tc = true) :
    execBatch (pre ++ tc :: post) = (pre ++ [tc], some tc) := by
  induction pre with
  | nil => simp [execBatch, htc]
  | cons a rest ih =>
    have ha : isTerminal a = false := hpre a (List.mem_cons_self _ _)
    simp [execBatch, ha, ih fun c hc => hpre c (List.mem_cons_of_mem _ hc)]

theorem runChain_succ_batch (resp : ℕ → List ToolName) (step fuel : ℕ)
    (nudge : Bool) (h : resp step ≠ []) :
    runChain resp step (fuel + 1) nudge =
      match (execBatch (resp step)).2 with
      | some tc => (.finalized tc, (execBatch (resp step)).1, 0)
      | none =>
        ((runChain resp (step + 1) fuel nudge).1,
          (execBatch (resp step)).1 ++ (runChain resp (step + 1) fuel nudge).2.1,
          (runChain resp (step + 1) fuel nudge).2.2) := by
  cases hr : resp step with
  | nil => exact absurd hr h
  | cons t ts =>
    simp only [runChain, hr]

theorem runChain_stepsExceeded (resp : ℕ → List ToolName) (fuel : ℕ) :
    ∀ (step : ℕ) (nudge : Bool),
    (∀ k, step ≤ k → k < step + fuel → (execBatch (resp k)).2 = none) →
    countEmpty resp step fuel + (if nudge then 1 else 0) ≤ 1 →
    (runChain resp step fuel nudge).1 = ChainResult.stepsExceeded := by
  induction fuel with
  | zero => intro step nudge _ _; rfl
  | succ n ih =>
    intro step nudge hterm hemp
    cases hr : resp step with
    | nil =>
      have hnudge : nudge = false := by
        cases nudge
        · rfl
        · exfalso
          simp [countEmpty, hr] at hemp
      subst hnudge
      have hcount : countEmpty resp (step + 1) n = 0 := by
        simp [countEmpty, hr] at hemp
        omega
      simp only [runChain, hr, if_neg Bool.false_ne_true]
      exact ih (step + 1) true
        (fun k hk1 hk2 => hterm k (by omega) (by omega)) (by simp [hcount])
    | cons t ts =>
      have hnone : (execBatch (resp step)).2 = none := by
        exact hterm step le_rfl (by omega)
      rw [hr] at hnone
      have hcount : countEmpty resp (step + 1) n ≤
          countEmpty resp step (n + 1) := by
        simp [countEmpty, hr]
      simp only [runChain, hr, hnone]
      exact ih (step + 1) nudge
        (fun k hk1 hk2 => hterm k (by omega) (by omega)) (by omega)

/-- C3: in each model-turn batch the tool invocations execute in listed
order and the first one whose result type is terminal ("search" or "trip")
immediately finalizes the chain with that result — the invocations after
it in the batch are not executed; and a chain that exhausts the fixed step
bound (6) without any terminal result (at most one empty response, so the
loop is not cut short by the double-no-tool-call failure) ends with the
tool-steps-exceeded outcome. -/
theorem C3_terminal_and_step_bound (resp : ℕ → List ToolName) :
    (∀ (step fuel : ℕ) (nudge : Bool) (pre : List ToolName) (tc : ToolName)
        (post : List ToolName),
      resp step = pre ++ tc :: post →
      (∀ c ∈ pre, isTerminal c = false) →
      isTerminal tc = true →
      runChain resp step (fuel + 1) nudge =
        (.finalized tc, pre ++ [tc], 0)) ∧
    ((∀ k, k < MAX_TOOL_STEPS → (execBatch (resp k)).2 = none) →
      countEmpty resp 0 MAX_TOOL_STEPS ≤ 1 →
      (run_agent_tool_chain resp).1 = .stepsExceeded) := by
  constructor
  · intro step fuel nudge pre tc post hresp hpre htc
    have hb := execBatch_first_terminal pre tc post hpre htc
    have hne : resp step ≠ [] := by
      rw [hresp]
      cases pre <;> simp
    rw [runChain_succ_batch resp step fuel nudge hne, hresp, hb]
  · intro hterm hemp
    exact runChain_stepsExceeded resp MAX_TOOL_STEPS 0 false
      (fun k hk1 hk2 => hterm k (by omega)) (by simpa using hemp)

/-- C3 witness: a first batch listing a non-terminal category search, then
a terminal bulk search, then a merge — the chain finalizes on the bulk
search and the merge is never executed; and a model that keeps returning
only non-terminal candidate collection exhausts the 6 steps. -/
theorem C3_terminal_and_step_bound_witness :
    runChain
        (fun k => if k = 0 then
          [ToolName.search_category_tokyo, ToolName.search_osm_tokyo,
            ToolName.merge_search_results] else [])
        0 6 false
      = (.finalized ToolName.search_osm_tokyo,
          [ToolName.search_category_tokyo, ToolName.search_osm_tokyo], 0)
      ∧ (run_agent_tool_chain
          (fun _ => [ToolName.collect_trip_candidates])).1 = .stepsExceeded := by
  constructor
  · exact (C3_terminal_and_step_bound
      (fun k => if k = 0 then
        [ToolName.search_category_tokyo, ToolName.search_osm_tokyo,
          ToolName.merge_search_results] else [])).1
      0 5 false [ToolName.search_category_tokyo] ToolName.search_osm_tokyo
      [ToolName.merge_search_results] rfl (by decide) (by decide)
  · exact (C3_terminal_and_step_bound
      (fun _ => [ToolName.collect_trip_candidates])).2
      (fun k hk => rfl) (by decide)

theorem runChain_nudges_zero (resp : ℕ → List ToolName) (fuel : ℕ) :
    ∀ step : ℕ, (runChain resp step fuel true).2.2 = 0 := by
  induction fuel with
  | zero => intro step; rfl
  | succ n ih =>
    intro step
    cases hr : resp step with
    | nil => simp [runChain, hr]
    | cons t ts =>
      cases he : (execBatch (t :: ts)).2 with
      | some tc => simp [runChain, hr, he]
      | none => simp [runChain, hr, he, ih]

/-- C4: the corrective nudge is appended at most once per chain — a first
no-tool-call response appends exactly one nudge and the loop simply
continues (with the nudge flag set), while a no-tool-call response arriving
once the nudge flag is set terminates the chain immediately with the
no-tool-calls (parameter-extraction-failure) outcome; the nudge count of
any run never exceeds 1. -/
theorem C4_nudge_at_most_once (resp : ℕ → List ToolName) :
    (∀ (step fuel : ℕ) (nudge : Bool),
      (runChain resp step fuel nudge).2.2 ≤ 1) ∧
    (∀ (step fuel : ℕ), resp step = [] →
      runChain resp step (fuel + 1) true = (.noToolCalls, [], 0)) ∧
    (∀ (step fuel : ℕ), resp step = [] →
      runChain resp step (fuel + 1) false =
        ((runChain resp (step + 1) fuel true).1,
          (runChain resp (step + 1) fuel true).2.1,
          (runChain resp (step + 1) fuel true).2.2 + 1)) := by
  refine ⟨?_, ?_, ?_⟩
  · intro step fuel nudge
    induction fuel generalizing step nudge with
    | zero => exact Nat.zero_le 1
    | succ n ih =>
      cases hr : resp step with
      | nil =>
        cases nudge
        · simp [runChain, hr, runChain_nudges_zero]
        · simp [runChain, hr]
      | cons t ts =>
        cases he : (execBatch (t :: ts)).2 with
        | some tc => simp [runChain, hr, he]
        | none => simpa [runChain, hr, he] using ih (step + 1) nudge
  · intro step fuel h
    simp [runChain, h]
  · intro step fuel h
    simp [runChain, h]

/-- C4 witness: a model returning no tool call at steps 0 and 1 — the
first empty response appends the single nudge and the loop continues, the
second terminates the chain with the no-tool-calls failure; exactly one
nudge is counted. -/
theorem C4_nudge_at_most_once_witness :
    runChain (fun k => if k ≤ 1 then [] else [ToolName.search_osm_tokyo])
        0 6 false
      = (.noToolCalls, [], 1)
      ∧ (runChain (fun k => if k ≤ 1 then [] else [ToolName.search_osm_tokyo])
          0 6 false).2.2 ≤ 1 := by
  obtain ⟨h1, h2, h3⟩ :=
    C4_nudge_at_most_once
      (fun k => if k ≤ 1 then [] else [ToolName.search_osm_tokyo])
  have ha := h2 1 4 rfl
  have hb := h3 0 5 rfl
  rw [ha] at hb
  exact ⟨hb, h1 0 6 false⟩

theorem mkSlot_length (startH step : ℕ) :
    ∀ (j : ℕ) (l : List CandRow), (mkSlot startH step j l).length = l.length := by
  intro j l
  induction l generalizing j with
  | nil => rfl
  | cons r rest ih => simp [mkSlot, ih]

theorem mkSlot_get_time (startH step : ℕ) :
    ∀ (l : List CandRow) (j₀ j : ℕ) (hj : j < (mkSlot startH step j₀ l).length),
      ((mkSlot startH step j₀ l).get ⟨j, hj⟩).time =
        pad2 (startH + (j₀ + j) * step) ++ ":00" := by
  intro l
  induction l with
  | nil =>
    intro j₀ j hj
    simp [mkSlot] at hj
  | cons r rest ih =>
    intro j₀ j hj
    cases j with
    | zero => simp [mkSlot, slotItem]
    | succ m =>
      have hm : m < (mkSlot startH step (j₀ + 1) rest).length := by
        simpa [mkSlot] using hj
      have := ih (j₀ + 1) m hm
      simp only [mkSlot, List.get_cons_succ]
      rw [this]
      have harith : j₀ + 1 + m = j₀ + (m + 1) := by omega
      rw [harith]

theorem getD_set_self (l : List ℕ) :
    ∀ (p v : ℕ), p < l.length → (l.set p v).getD p 0 = v := by
  induction l with
  | nil => intro p v h; simp at h
  | cons a rest ih =>
    intro p v h
    cases p with
    | zero => rfl
    | succ q => exact ih q v (by simpa using h)

theorem getD_set_ne (l : List ℕ) :
    ∀ (p q v : ℕ), p ≠ q → (l.set p v).getD q 0 = l.getD q 0 := by
  induction l with
  | nil => intro p q v _; simp
  | cons a rest ih =>
    intro p q v h
    cases p with
    | zero =>
      cases q with
      | zero => exact absurd rfl h
      | succ m => rfl
    | succ n =>
      cases q with
      | zero => rfl
      | succ m => exact ih n m v (by omega)

theorem sum_set_add (l : List ℕ) :
    ∀ (p v : ℕ), p < l.length → (l.set p v).sum + l.getD p 0 = l.sum + v := by
  induction l with
  | nil => intro p v h; simp at h
  | cons a rest ih =>
    intro p v h
    cases p with
    | zero =>
      simp [List.set]
      omega
    | succ q =>
      have := ih q v (by simpa using h)
      simp only [List.set, List.sum_cons]
      have hgd : (a :: rest).getD (q + 1) 0 = rest.getD q 0 := rfl
      rw [hgd]
      omega

/-- The state invariant of the rotation loop: the consumed-count list is
aligned with the buckets and never overruns any bucket. -/
def IdxOk (bs : List (List CandRow)) (idx : List ℕ) : Prop :=
  idx.length = bs.length ∧
    ∀ p, p < bs.length → idx.getD p 0 ≤ (bs.getD p []).length

theorem scanPick_some (bs : List (List CandRow)) (idx : List ℕ) (cursor : ℕ) :
    ∀ (rem tried p : ℕ), scanPick bs idx cursor rem tried = some p →
      idx.getD p 0 < (bs.getD p []).length ∧ p < bs.length := by
  intro rem
  induction rem with
  | zero => intro tried p h; cases h
  | succ n ih =>
    intro tried p h
    unfold scanPick at h
    split at h
    · next hlt =>
      cases h
      refine ⟨hlt, ?_⟩
      by_contra hge
      have hnil : bs.getD ((cursor + tried) % bs.length) [] = [] :=
        List.getD_eq_default _ _ (by omega)
      rw [hnil] at hlt
      simp at hlt
    · exact ih (tried + 1) p h

theorem pickOne_spec (bs : List (List CandRow)) (idx : List ℕ) (cursor : ℕ)
    (r : CandRow) (idx₁ : List ℕ) (cur₁ : ℕ)
    (h : pickOne bs idx cursor = some (r, idx₁, cur₁)) (hok : IdxOk bs idx) :
    IdxOk bs idx₁ ∧ idx₁.sum = idx.sum + 1 := by
  unfold pickOne at h
  split at h
  · cases h
  · next hne =>
    cases hscan : scanPick bs idx cursor bs.length 0 with
    | none =>
      simp only [hscan] at h
      exact Option.noConfusion h
    | some p =>
      simp only [hscan] at h
      obtain ⟨hlt, hp⟩ := scanPick_some bs idx cursor bs.length 0 p hscan
      cases hget : (bs.getD p []).get? (idx.getD p 0) with
      | none =>
        simp only [hget] at h
        exact Option.noConfusion h
      | some r₀ =>
        simp only [hget, Option.some.injEq, Prod.mk.injEq] at h
        obtain ⟨rfl, rfl, rfl⟩ := h
        have hplen : p < idx.length := by rw [hok.1]; exact hp
        constructor
        · constructor
          · rw [List.length_set, hok.1]
          · intro q hq
            by_cases hpq : p = q
            · subst hpq
              rw [getD_set_self idx p _ hplen]
              omega
            · rw [getD_set_ne idx p q _ hpq]
              exact hok.2 q hq
        · have := sum_set_add idx p (idx.getD p 0 + 1) hplen
          omega

theorem buildDayItems_spec (bs : List (List CandRow)) :
    ∀ (n : ℕ) (idx : List ℕ) (cursor : ℕ), IdxOk bs idx →
      (buildDayItems bs n idx cursor).1.length ≤ n ∧
      IdxOk bs (buildDayItems bs n idx cursor).2.1 ∧
      (buildDayItems bs n idx cursor).2.1.sum =
        idx.sum + (buildDayItems bs n idx cursor).1.length := by
  intro n
  induction n with
  | zero => intro idx cursor hok; exact ⟨le_rfl, hok, rfl⟩
  | succ m ih =>
    intro idx cursor hok
    unfold buildDayItems
    cases hp : pickOne bs idx cursor with
    | none => exact ⟨Nat.zero_le _, hok, rfl⟩
    | some t =>
      obtain ⟨r, idx₁, cur₁⟩ := t
      obtain ⟨hok₁, hsum₁⟩ := pickOne_spec bs idx cursor r idx₁ cur₁ hp hok
      obtain ⟨hlen, hok₂, hsum₂⟩ := ih idx₁ cur₁ hok₁
      refine ⟨?_, hok₂, ?_⟩
      · simpa using Nat.succ_le_succ hlen
      · simp only [List.length_cons]
        omega

theorem sum_le_of_pointwise (bs : List (List CandRow)) :
    ∀ idx : List ℕ, idx.length = bs.length →
      (∀ p, p < bs.length → idx.getD p 0 ≤ (bs.getD p []).length) →
      idx.sum ≤ (bs.map List.length).sum := by
  induction bs with
  | nil =>
    intro idx hlen _
    rw [List.length_nil] at hlen
    rw [List.eq_nil_of_length_eq_zero hlen]
    simp
  | cons b rest ih =>
    intro idx hlen hpt
    cases idx with
    | nil => simp at hlen
    | cons a tail =>
      have h0 : a ≤ b.length := hpt 0 (by simp)
      have htail : tail.sum ≤ (rest.map List.length).sum := by
        refine ih tail (by simpa using hlen) ?_
        intro p hp
        exact hpt (p + 1) (by simpa using Nat.succ_lt_succ hp)
      simp only [List.sum_cons, List.map_cons]
      omega

theorem buildDays_spec (place : Option String) (bs : List (List CandRow))
    (perDay startH step : ℕ) :
    ∀ (dRem d : ℕ) (idx : List ℕ) (cursor : ℕ), IdxOk bs idx →
      (∀ day ∈ buildDays place bs perDay startH step dRem d idx cursor,
        day.items.length ≤ perDay) ∧
      ((buildDays place bs perDay startH step dRem d idx cursor).map
          (fun x => x.items.length)).sum + idx.sum ≤
        (bs.map List.length).sum ∧
      (∀ day ∈ buildDays place bs perDay startH step dRem d idx cursor,
        ∀ (j : ℕ) (hj : j < day.items.length),
          (day.items.get ⟨j, hj⟩).time = pad2 (startH + j * step) ++ ":00") := by
  intro dRem
  induction dRem with
  | zero =>
    intro d idx cursor hok
    refine ⟨by simp [buildDays], ?_, by simp [buildDays]⟩
    simpa [buildDays] using sum_le_of_pointwise bs idx hok.1 hok.2
  | succ m ih =>
    intro d idx cursor hok
    obtain ⟨hdlen, hok₁, hdsum⟩ := buildDayItems_spec bs perDay idx cursor hok
    obtain ⟨ih1, ih2, ih3⟩ := ih (d + 1)
      (buildDayItems bs perDay idx cursor).2.1
      (buildDayItems bs perDay idx cursor).2.2 hok₁
    refine ⟨?_, ?_, ?_⟩
    · intro day hday
      rcases List.mem_cons.mp hday with rfl | hmem
      · simpa [mkSlot_length] using hdlen
      · exact ih1 day hmem
    · simp only [buildDays, List.map_cons, List.sum_cons, mkSlot_length]
      omega
    · intro day hday
      rcases List.mem_cons.mp hday with rfl | hmem
      · intro j hj
        have := mkSlot_get_time startH step
          (buildDayItems bs perDay idx cursor).1 0 j (by simpa using hj)
        simpa using this
      · exact ih3 day hmem

/-- C7: for every call to the itinerary builder with `per_day ∈ [1,12]`
and any pace, every day's item count is at most `per_day`, the total
number of scheduled items is at most the sum of the bucket sizes, and the
j-th item of each day carries the time label `HH:00` (zero-padded) with
hour `start + j * (8 / per_day + 1)` where `start` is 10 for relaxed, 9
for standard and 8 for packed. -/
theorem C7_itinerary_bounds (place : Option String)
    (buckets : List (String × List CandRow)) (days perDay : ℕ) (pace : Pace)
    (_hp1 : 1 ≤ perDay) (_hp2 : perDay ≤ 12) :
    (∀ day ∈ build_itinerary_from_buckets place buckets days perDay pace,
      day.items.length ≤ perDay) ∧
    ((build_itinerary_from_buckets place buckets days perDay pace).map
        (fun x => x.items.length)).sum ≤
      (buckets.map (fun kv => kv.2.length)).sum ∧
    (∀ day ∈ build_itinerary_from_buckets place buckets days perDay pace,
      ∀ (j : ℕ) (hj : j < day.items.length),
        (day.items.get ⟨j, hj⟩).time =
          pad2 (startHour pace + j * (8 / perDay + 1)) ++ ":00") := by
  have hrep : ∀ (n p : ℕ), (List.replicate n (0 : ℕ)).getD p 0 = 0 := by
    intro n
    induction n with
    | zero => intro p; simp
    | succ m ihm =>
      intro p
      cases p with
      | zero => rfl
      | succ q => exact ihm q
  have hok : IdxOk (buckets.map Prod.snd)
      (List.replicate (buckets.map Prod.snd).length 0) := by
    constructor
    · simp
    · intro p hp
      rw [hrep]
      exact Nat.zero_le _
  have hzero : (List.replicate (buckets.map Prod.snd).length (0 : ℕ)).sum = 0 := by
    simp
  obtain ⟨h1, h2, h3⟩ := buildDays_spec place (buckets.map Prod.snd) perDay
    (startHour pace) (hourStep perDay) days 0
    (List.replicate (buckets.map Prod.snd).length 0) 0 hok
  refine ⟨h1, ?_, ?_⟩
  · rw [hzero] at h2
    have hmap : ((buckets.map Prod.snd).map List.length).sum =
        (buckets.map (fun kv => kv.2.length)).sum := by
      rw [List.map_map]
      rfl
    show ((buildDays place (buckets.map Prod.snd) perDay (startHour pace)
        (hourStep perDay) days 0
        (List.replicate (buckets.map Prod.snd).length 0) 0).map
          (fun x => x.items.length)).sum ≤
      (buckets.map (fun kv => kv.2.length)).sum
    rw [← hmap]
    omega
  · exact h3

/-- C7 witness: one bucket of two cafes, one day, `per_day = 2`, standard
pace — at most two items per day, total within the bucket size, and the
second item is stamped 09+5 = 14:00 (`8 / 2 + 1 = 5`). -/
theorem C7_itinerary_bounds_witness :
    (∀ day ∈ build_itinerary_from_buckets (some "shibuya")
        [("cafe",
          [{ lat := 35, lon := 139, name := some "A", brand := none,
             layer := "cafe", dist_km := 1 },
           { lat := 36, lon := 139, name := some "B", brand := none,
             layer := "cafe", dist_km := 2 }])] 1 2 Pace.standard,
      day.items.length ≤ 2) ∧
    (∀ day ∈ build_itinerary_from_buckets (some "shibuya")
        [("cafe",
          [{ lat := 35, lon := 139, name := some "A", brand := none,
             layer := "cafe", dist_km := 1 },
           { lat := 36, lon := 139, name := some "B", brand := none,
             layer := "cafe", dist_km := 2 }])] 1 2 Pace.standard,
      ∀ (j : ℕ) (hj : j < day.items.length),
        (day.items.get ⟨j, hj⟩).time = pad2 (9 + j * 5) ++ ":00") := by
  obtain ⟨h1, _, h3⟩ := C7_itinerary_bounds (some "shibuya")
    [("cafe",
      [{ lat := 35, lon := 139, name := some "A", brand := none,
         layer := "cafe", dist_km := 1 },
       { lat := 36, lon := 139, name := some "B", brand := none,
         layer := "cafe", dist_km := 2 }])] 1 2 Pace.standard
    (by norm_num) (by norm_num)
  exact ⟨h1, h3⟩

end Nda
